import Mathlib

/-!
Verification of the AltunSlackExporter repository (two Python scripts,
`ExportThreadWithoutReplies.py` and `ExportReplies.py`) against its
natural-language specification.

The scripts are shallowly embedded: each network interaction is driven by a
trace of `FetchResult`s (the successive responses the remote endpoint returns
for the successive requests the loop issues), and the loops of the two scripts
are translated into structurally recursive Lean functions over that trace.
Durable file writes performed by `ExportReplies.main` are reified as a list of
`PersistEvent`s, replayed by `stateAfter` to recover the on-disk state at any
intermediate point of the run.
-/

namespace AltunSlack

/-- One Slack message, restricted to the keys either script consumes.  Every
field is optional, mirroring Python's `dict.get` returning `None` for an
absent key. -/
structure Msg where
  ts : Option String
  user : Option String
  text : Option String
  thread_ts : Option String
  reply_count : Option Int
  subtype : Option String
deriving DecidableEq

/-- Python truthiness of an optional string: `None` and `""` are falsy. -/
def truthyStr : Option String → Bool
  | none => false
  | some s => !(s == "")

/-- Filter applied by `ExportReplies.main` (line 132-135): keep `m` when
`m.get("thread_ts")` is truthy and `m.get("ts") != m.get("thread_ts")`. -/
def isReply (m : Msg) : Bool :=
  truthyStr m.thread_ts && !(m.ts == m.thread_ts)

/-- Filter applied by `fetch_only_thread_messages` (line 71): keep `message`
when `'reply_count' in message and message['reply_count'] > 0`. -/
def isThreadRoot (m : Msg) : Bool :=
  match m.reply_count with
  | some v => 0 < v
  | none => false

/-- Record built by `fetch_only_thread_messages` (lines 77-86) for each
collected thread root. -/
structure ThreadRecord where
  ts : String
  user : String
  text : String
  thread_ts : String
  reply_count : Int
  subtype : String
  thread_url : String
deriving DecidableEq

/-- Replacement of every newline character by a space, modelling the
`text.replace('\n', ' ')` of line 80 as a character map (the pattern and the
replacement are both single characters). -/
def replaceNewlines (s : String) : String :=
  ⟨s.data.map fun c => if c = '\n' then ' ' else c⟩

/-- Construction of the record appended at lines 77-86 of
`ExportThreadWithoutReplies.py`.  `perma` abstracts
`get_permalink_for_message` as an oracle from a message `ts` to the permalink
string that call eventually returns (its own throttle loop always returns a
string, `""` on failure). -/
def mkThreadRecord (perma : String → String) (m : Msg) : ThreadRecord :=
  { ts := m.ts.getD ""
    user := m.user.getD "Unknown"
    text := replaceNewlines (m.text.getD "")
    thread_ts := m.ts.getD ""
    reply_count := m.reply_count.getD 0
    subtype := m.subtype.getD "normal_message"
    thread_url := perma (m.ts.getD "") }

/-- Parsed JSON body of a response: either `ok: true` with a message list and
an optional `response_metadata.next_cursor`, or `ok: false` with an `error`
string. -/
inductive Body where
  | ok (messages : List Msg) (nextCursor : Option String)
  | err (error : String)
deriving DecidableEq

/-- One HTTP response: status code, optional parsed `Retry-After` header, and
parsed JSON body. -/
structure HttpResp where
  status : Nat
  retryAfter : Option Nat
  body : Body
deriving DecidableEq

/-- Result of one attempted network call: a response, or the underlying
`requests` call raising a `RequestException` (connection/transport failure,
including the non-2xx statuses surfaced by `raise_for_status`). -/
inductive FetchResult where
  | resp (r : HttpResp)
  | transportFail
deriving DecidableEq

/-- How the channel-history loop of `fetch_only_thread_messages` ended:
`normal` (a page without a truthy next cursor), `abandoned` (API error body,
error status, or a caught transport failure — the partial result is
returned), or `exhausted` (the finite response trace ran out while the loop
still wanted pages). -/
inductive ChanTerm where
  | normal
  | abandoned
  | exhausted
deriving DecidableEq

/-- How the replies pagination loop of `ExportReplies.main` ended.  `crashed`
marks an uncaught `RequestException`: that script wraps no `try` around
`requests.post`, so a transport failure propagates and kills the process. -/
inductive ReplyTerm where
  | normal
  | abandoned
  | crashed
  | exhausted
deriving DecidableEq

/-- Query parameters built for `conversations.history` (lines 31-34, 46-47 of
`ExportThreadWithoutReplies.py`): `channel` and `limit` always, plus `cursor`
once a truthy next cursor has been seen. -/
def buildHistoryParams (channel : String) (cursor : Option String) :
    List (String × String) :=
  [("channel", channel), ("limit", "1000")] ++
    match cursor with
    | some c => if c == "" then [] else [("cursor", c)]
    | none => []

/-- Form data built for `conversations.replies` (lines 93-99 of
`ExportReplies.py`): `channel`, `ts`, `limit` always, plus `cursor` when
set. -/
def buildRepliesData (channel tts : String) (cursor : Option String) :
    List (String × String) :=
  [("channel", channel), ("ts", tts), ("limit", "1000")] ++
    match cursor with
    | some c => if c == "" then [] else [("cursor", c)]
    | none => []

/-- Observable outcome of one run of the channel-history loop: collected
records, how the loop ended, the request parameter lists issued (in order),
and the `time.sleep` durations performed (in order). -/
structure ChanOut where
  threads : List ThreadRecord
  term : ChanTerm
  reqs : List (List (String × String))
  sleeps : List Nat
deriving DecidableEq

/-- The `while True` loop of `fetch_only_thread_messages` (lines 45-102),
driven by the response trace.  State: remaining trace, current cursor
parameter, accumulator `all_threads`.  An HTTP 429 sleeps `Retry-After`
(default 10) and retries the identical request; other error statuses raise in
`raise_for_status` and are caught (abandon); an `ok: false` body abandons; an
`ok` page appends the filtered, record-mapped messages, then follows the next
cursor if truthy (sleeping 1 second between pages) and otherwise ends
normally. -/
def fetchAux (perma : String → String) (channel : String) :
    List FetchResult → Option String → List ThreadRecord → ChanOut
  | [], _, acc => ⟨acc, .exhausted, [], []⟩
  | .transportFail :: _, cur, acc =>
      ⟨acc, .abandoned, [buildHistoryParams channel cur], []⟩
  | .resp r :: rest, cur, acc =>
      let req := buildHistoryParams channel cur
      if r.status == 429 then
        let o := fetchAux perma channel rest cur acc
        ⟨o.threads, o.term, req :: o.reqs, (r.retryAfter.getD 10) :: o.sleeps⟩
      else if 400 ≤ r.status then
        ⟨acc, .abandoned, [req], []⟩
      else
        match r.body with
        | .err _ => ⟨acc, .abandoned, [req], []⟩
        | .ok msgs cur' =>
            let acc2 := acc ++ (msgs.filter isThreadRoot).map (mkThreadRecord perma)
            if truthyStr cur' then
              let o := fetchAux perma channel rest cur' acc2
              ⟨o.threads, o.term, req :: o.reqs, 1 :: o.sleeps⟩
            else
              ⟨acc2, .normal, [req], []⟩

/-- Entry point of `fetch_only_thread_messages`: cursor initially absent,
accumulator initially empty. -/
def fetch_only_thread_messages (perma : String → String) (channel : String)
    (trace : List FetchResult) : ChanOut :=
  fetchAux perma channel trace none []

/-- Observable outcome of one run of the replies pagination loop for a single
thread. -/
structure ReplyOut where
  replies : List Msg
  term : ReplyTerm
  reqs : List (List (String × String))
  sleeps : List Nat
deriving DecidableEq

/-- The inner `while True` loop of `ExportReplies.main` (lines 92-144) for one
thread timestamp `tts`, driven by the response trace.  An HTTP 429 with a
`Retry-After` header sleeps and retries the identical request; a 429 without
the header falls through to body parsing.  An `ok: false` body with error
`"ratelimited"` retries after `Retry-After` when present and otherwise breaks
(abandoning the unit); any other `ok: false` body breaks.  An `ok` page
appends the `isReply`-filtered messages and follows the next cursor if truthy
(no inter-page sleep); a transport failure is uncaught and crashes the
process. -/
def repliesAux (channel tts : String) :
    List FetchResult → Option String → List Msg → ReplyOut
  | [], _, acc => ⟨acc, .exhausted, [], []⟩
  | .transportFail :: _, cur, acc =>
      ⟨acc, .crashed, [buildRepliesData channel tts cur], []⟩
  | .resp r :: rest, cur, acc =>
      let req := buildRepliesData channel tts cur
      if r.status == 429 && r.retryAfter.isSome then
        let o := repliesAux channel tts rest cur acc
        ⟨o.replies, o.term, req :: o.reqs, (r.retryAfter.getD 0) :: o.sleeps⟩
      else
        match r.body with
        | .err e =>
            if e == "ratelimited" then
              match r.retryAfter with
              | some w =>
                  let o := repliesAux channel tts rest cur acc
                  ⟨o.replies, o.term, req :: o.reqs, w :: o.sleeps⟩
              | none => ⟨acc, .abandoned, [req], []⟩
            else
              ⟨acc, .abandoned, [req], []⟩
        | .ok msgs cur' =>
            let acc2 := acc ++ msgs.filter isReply
            if truthyStr cur' then
              let o := repliesAux channel tts rest cur' acc2
              ⟨o.replies, o.term, req :: o.reqs, o.sleeps⟩
            else
              ⟨acc2, .normal, [req], []⟩

/-- Replies collected for one thread timestamp by the inner loop, starting
from an absent cursor and an empty per-unit accumulation (the script extends
the shared `replies_data` list page by page; extensionally the unit
contributes exactly this list). -/
def collectReplies (channel tts : String) (trace : List FetchResult) : ReplyOut :=
  repliesAux channel tts trace none []

/-- One durable write performed by `ExportReplies.main`: an overwrite of
`progress.json` with `{"last_processed_index": idx}` or an overwrite of
`replies.json` with the full accumulated list. -/
inductive PersistEvent where
  | writeProgress (idx : Nat)
  | writeReplies (data : List Msg)
deriving DecidableEq

/-- Observable outcome of one run of `ExportReplies.main` from a given start
index: final in-memory `replies_data`, the ordered durable writes performed,
the thread timestamps actually fetched, and whether the run died on an
uncaught transport exception. -/
structure RunOut where
  replies : List Msg
  events : List PersistEvent
  fetched : List String
  crashed : Bool
deriving DecidableEq

/-- The outer `for` loop of `ExportReplies.main` (lines 82-153), iterating
`enumerate(thread_ts_list[start_index:], start=start_index)`.  After each
unit it first overwrites `progress.json` with `i + 1` and then overwrites
`replies.json` with the accumulated list.  A crashed unit stops the process
with no writes for that unit. -/
def runUnits (channel : String) (net : String → List FetchResult) :
    Nat → List String → List Msg → RunOut
  | _, [], acc => ⟨acc, [], [], false⟩
  | i, t :: rest, acc =>
      let u := collectReplies channel t (net t)
      if u.term = ReplyTerm.crashed then
        ⟨acc ++ u.replies, [], [t], true⟩
      else
        let acc2 := acc ++ u.replies
        let o := runUnits channel net (i + 1) rest acc2
        ⟨o.replies,
         .writeProgress (i + 1) :: .writeReplies acc2 :: o.events,
         t :: o.fetched,
         o.crashed⟩

/-- One full run of `ExportReplies.main`, after configuration and file
loading: `tsList` is the `ts` list read from `threads.json`, `startIndex` the
resume index read from `progress.json`, `replies0` the prior content of
`replies.json`.  A run that finishes the loop appends the final reset of
`progress.json` to `0` (lines 157-159); a crashed run performs no further
writes. -/
def mainRun (channel : String) (net : String → List FetchResult)
    (tsList : List String) (startIndex : Nat) (replies0 : List Msg) : RunOut :=
  let o := runUnits channel net startIndex (tsList.drop startIndex) replies0
  if o.crashed then o
  else ⟨o.replies, o.events ++ [.writeProgress 0], o.fetched, false⟩

/-- Extraction of the work list from the parsed `threads.json` (lines 50-56):
the truthy `ts` values, in order. -/
def tsListOf (threads : List Msg) : List String :=
  threads.filterMap fun t =>
    match t.ts with
    | some s => if s == "" then none else some s
    | none => none

/-- Resume-index loading (lines 58-66): absent file or unparseable JSON means
`0`; otherwise `progress_data.get("last_processed_index", 0)`. -/
def loadStartIndex : Option (Option Nat) → Nat
  | none => 0
  | some none => 0
  | some (some i) => i

/-- Durable state of the two files written by `ExportReplies.main`:
`progress.json`'s stored index and `replies.json`'s content (`none` if the
file has never been written). -/
structure DurableState where
  marker : Nat
  repliesFile : Option (List Msg)
deriving DecidableEq

/-- Effect of one durable write. -/
def applyEvent : DurableState → PersistEvent → DurableState
  | s, .writeProgress i => ⟨i, s.repliesFile⟩
  | s, .writeReplies d => ⟨s.marker, some d⟩

/-- Durable state reached after replaying a list of writes. -/
def stateAfter (init : DurableState) (evs : List PersistEvent) : DurableState :=
  evs.foldl applyEvent init

/-- Concatenation, in work-list order, of the replies each listed thread's
pagination collects. -/
def concatReplies (channel : String) (net : String → List FetchResult) :
    List String → List Msg
  | [] => []
  | t :: rest => (collectReplies channel t (net t)).replies ++ concatReplies channel net rest

/-- Durable writes produced by the units of one uncrashed run, in order: for
each unit, first the advanced progress index, then the full accumulated
replies list. -/
def unitEvents (channel : String) (net : String → List FetchResult) :
    Nat → List String → List Msg → List PersistEvent
  | _, [], _ => []
  | i, t :: rest, acc =>
      let acc2 := acc ++ (collectReplies channel t (net t)).replies
      .writeProgress (i + 1) :: .writeReplies acc2 ::
        unitEvents channel net (i + 1) rest acc2

/-- Index of the first page whose next cursor is falsy (none or empty);
equals the list length when every page carries a truthy cursor. -/
def stopIdx : List (List Msg × Option String) → Nat
  | [] => 0
  | p :: rest => if truthyStr p.2 then stopIdx rest + 1 else 0

/-- Trace in which the endpoint answers every request with a successful page:
`ok` body, status 200, no throttling. -/
def pagesToTrace (pages : List (List Msg × Option String)) : List FetchResult :=
  pages.map fun p => .resp ⟨200, none, .ok p.1 p.2⟩

/-- Trace of successful pages that all carry a truthy next cursor, so the
loop consumes them all and keeps going. -/
def midPages (ps : List (List Msg)) : List FetchResult :=
  ps.map fun msgs => .resp ⟨200, none, .ok msgs (some "cur")⟩

/-- Cursor parameter held by the loop after consuming the `midPages`
responses. -/
def midCur (cur : Option String) : List (List Msg) → Option String
  | [] => cur
  | _ :: _ => some "cur"

/-- Concatenation, in page order, of the `isReply`-filtered messages of a
list of pages. -/
def concatIsReply (ps : List (List Msg)) : List Msg :=
  ps.foldr (fun msgs r => msgs.filter isReply ++ r) []

/-- Concatenation, in page order, of the thread-root records built from a
list of pages. -/
def concatRootRecords (perma : String → String) (ps : List (List Msg)) :
    List ThreadRecord :=
  ps.foldr (fun msgs r => (msgs.filter isThreadRoot).map (mkThreadRecord perma) ++ r) []

/-- Responses on which the channel-history loop gives up on its listing and
returns the accumulated partial result: a caught transport failure, an error
HTTP status other than 429, or any `ok: false` body. -/
def abandonsChan : FetchResult → Bool
  | .transportFail => true
  | .resp r =>
      if r.status == 429 then false
      else if 400 ≤ r.status then true
      else
        match r.body with
        | .err _ => true
        | .ok _ _ => false

/-- Responses on which the replies loop breaks out, abandoning the unit but
keeping what was accumulated: an `ok: false` body whose error is not
`"ratelimited"`, or a `"ratelimited"` error without a `Retry-After` header
(all provided the pre-parse 429-with-header retry does not fire). -/
def softAbandonsReplies : FetchResult → Bool
  | .transportFail => false
  | .resp r =>
      if r.status == 429 && r.retryAfter.isSome then false
      else
        match r.body with
        | .err e => if e == "ratelimited" then r.retryAfter.isNone else true
        | .ok _ _ => false

/-- Code-point comparison of character lists, strict. -/
def strLtB : List Char → List Char → Bool
  | [], [] => false
  | [], _ :: _ => true
  | _ :: _, [] => false
  | a :: as, b :: bs =>
      if a.toNat < b.toNat then true
      else if b.toNat < a.toNat then false
      else strLtB as bs

/-- Code-point comparison of strings, non-strict.  On Slack's equal-width
decimal timestamp strings this coincides with numeric order. -/
def strLeB (a b : String) : Bool := a == b || strLtB a.data b.data

/-- Whether a record list is in ascending `ts` order. -/
def ascendingByTs : List ThreadRecord → Bool
  | [] => true
  | [_] => true
  | a :: b :: rest => strLeB a.ts b.ts && ascendingByTs (b :: rest)

/-- A reply message: `ts` 1.1 inside thread 1.0, satisfying `isReply`. -/
def msgR : Msg := ⟨some "1.1", none, none, some "1.0", none, none⟩

/-- A reply message: `ts` 2.1 inside thread 2.0. -/
def msgR2 : Msg := ⟨some "2.1", none, none, some "2.0", none, none⟩

/-- A thread-root message with `ts` 5 and two replies. -/
def thr5 : Msg := ⟨some "5", some "u", some "hi", none, some 2, none⟩

/-- A thread-root message with `ts` 3 and one reply. -/
def thr3 : Msg := ⟨some "3", some "u", some "lo", none, some 1, none⟩

/-- Permalink oracle that resolves every message to the empty string. -/
def perma0 : String → String := fun _ => ""

/-- Remote state answering every thread's replies listing with one final page
holding the single reply `msgR`. -/
def net1 : String → List FetchResult :=
  fun _ => [.resp ⟨200, none, .ok [msgR] none⟩]

/-- Remote state in which thread 1.0's listing yields one page with a truthy
cursor and then a transport failure, while every other thread's listing
yields one final page holding `msgR2`. -/
def net8 : String → List FetchResult :=
  fun t =>
    if t == "1.0" then [.resp ⟨200, none, .ok [msgR] (some "c")⟩, .transportFail]
    else [.resp ⟨200, none, .ok [msgR2] none⟩]

/-- Remote state that never answers (no unit ever consults it). -/
def netE : String → List FetchResult := fun _ => []

/-- Channel-history trace: a single final page containing only `thr5`. -/
def tr6 : List FetchResult := [.resp ⟨200, none, .ok [thr5] none⟩]

/-- Channel-history trace: a single final page listing `thr5` before `thr3`,
i.e. newest first, as `conversations.history` returns them. -/
def tr9 : List FetchResult := [.resp ⟨200, none, .ok [thr5, thr3] none⟩]

theorem concatReplies_append (channel : String) (net : String → List FetchResult)
    (l1 l2 : List String) :
    concatReplies channel net (l1 ++ l2) =
      concatReplies channel net l1 ++ concatReplies channel net l2 := by
  induction l1 with
  | nil => simp [concatReplies]
  | cons t rest ih => simp [concatReplies, ih]

theorem runUnits_noCrash (channel : String) (net : String → List FetchResult) :
    ∀ (l : List String) (i : Nat) (acc : List Msg),
      (∀ t ∈ l, (collectReplies channel t (net t)).term ≠ .crashed) →
      runUnits channel net i l acc =
        ⟨acc ++ concatReplies channel net l, unitEvents channel net i l acc, l, false⟩ := by
  intro l
  induction l with
  | nil => intro i acc _; simp [runUnits, concatReplies, unitEvents]
  | cons t rest ih =>
      intro i acc h
      have ht : (collectReplies channel t (net t)).term ≠ .crashed := h t (by simp)
      have hrest : ∀ t' ∈ rest, (collectReplies channel t' (net t')).term ≠ .crashed :=
        fun t' ht' => h t' (by simp [ht'])
      simp only [runUnits]
      rw [if_neg ht, ih (i + 1) (acc ++ (collectReplies channel t (net t)).replies) hrest]
      simp [unitEvents, concatReplies, List.append_assoc]

theorem stateAfter_unitEvents_take (channel : String) (net : String → List FetchResult) :
    ∀ (l : List String) (k i : Nat) (acc : List Msg) (s : DurableState)
      (tail : List PersistEvent),
      k + 1 ≤ l.length →
      stateAfter s ((unitEvents channel net i l acc ++ tail).take (2 * (k + 1))) =
        ⟨i + (k + 1), some (acc ++ concatReplies channel net (l.take (k + 1)))⟩ := by
  intro l
  induction l with
  | nil => intro k i acc s tail h; simp at h
  | cons t rest ih =>
      intro k i acc s tail h
      have htwo : 2 * (k + 1) = (2 * k + 1) + 1 := by omega
      simp only [unitEvents, List.cons_append, htwo, List.take_succ_cons]
      cases k with
      | zero =>
          simp [stateAfter, applyEvent, concatReplies]
      | succ j =>
          have hj : j + 1 ≤ rest.length := by
            simp only [List.length_cons] at h
            omega
          have ihh := ih j (i + 1) (acc ++ (collectReplies channel t (net t)).replies)
            (⟨i + 1, some (acc ++ (collectReplies channel t (net t)).replies)⟩) tail hj
          simp only [stateAfter, List.foldl_cons, applyEvent] at ihh ⊢
          rw [ihh]
          simp only [concatReplies, DurableState.mk.injEq, List.append_assoc]
          exact ⟨by omega, trivial⟩

theorem repliesAux_pagesToTrace (channel tts : String) :
    ∀ (pages : List (List Msg × Option String)) (cur : Option String) (acc : List Msg),
      (repliesAux channel tts (pagesToTrace pages) cur acc).replies =
          acc ++ concatIsReply ((pages.take (stopIdx pages + 1)).map Prod.fst) ∧
      (repliesAux channel tts (pagesToTrace pages) cur acc).term =
          (if stopIdx pages < pages.length then ReplyTerm.normal else ReplyTerm.exhausted) := by
  intro pages
  induction pages with
  | nil =>
      intro cur acc
      simp [pagesToTrace, repliesAux, concatIsReply, stopIdx]
  | cons p rest ih =>
      intro cur acc
      simp only [pagesToTrace, List.map_cons, repliesAux]
      by_cases hc : truthyStr p.2 = true
      · have ihh := ih p.2 (acc ++ p.1.filter isReply)
        simp only [stopIdx, hc, if_true]
        simp only [List.take_succ_cons, List.map_cons, concatIsReply, List.foldr_cons]
        constructor
        · simpa [pagesToTrace, concatIsReply, List.append_assoc, hc] using ihh.1
        · have := ihh.2
          simp only [pagesToTrace] at this
          simp [hc, this, List.length_cons, Nat.succ_lt_succ_iff]
      · have hc' : truthyStr p.2 = false := by
          cases hcc : truthyStr p.2
          · rfl
          · exact absurd hcc hc
        simp [stopIdx, hc', concatIsReply]

theorem fetchAux_pagesToTrace (perma : String → String) (channel : String) :
    ∀ (pages : List (List Msg × Option String)) (cur : Option String)
      (acc : List ThreadRecord),
      (fetchAux perma channel (pagesToTrace pages) cur acc).threads =
          acc ++ concatRootRecords perma ((pages.take (stopIdx pages + 1)).map Prod.fst) ∧
      (fetchAux perma channel (pagesToTrace pages) cur acc).term =
          (if stopIdx pages < pages.length then ChanTerm.normal else ChanTerm.exhausted) := by
  intro pages
  induction pages with
  | nil =>
      intro cur acc
      simp [pagesToTrace, fetchAux, concatRootRecords, stopIdx]
  | cons p rest ih =>
      intro cur acc
      simp only [pagesToTrace, List.map_cons, fetchAux]
      by_cases hc : truthyStr p.2 = true
      · have ihh := ih p.2 (acc ++ (p.1.filter isThreadRoot).map (mkThreadRecord perma))
        simp only [stopIdx, hc, if_true]
        simp only [List.take_succ_cons, List.map_cons, concatRootRecords, List.foldr_cons]
        constructor
        · simpa [pagesToTrace, concatRootRecords, List.append_assoc, hc] using ihh.1
        · have := ihh.2
          simp only [pagesToTrace] at this
          simp [hc, this, List.length_cons, Nat.succ_lt_succ_iff]
      · have hc' : truthyStr p.2 = false := by
          cases hcc : truthyStr p.2
          · rfl
          · exact absurd hcc hc
        simp [stopIdx, hc', concatRootRecords]

theorem midCur_cur (rest : List (List Msg)) : midCur (some "cur") rest = some "cur" := by
  cases rest <;> rfl

theorem repliesAux_midPages (channel tts : String) :
    ∀ (ps : List (List Msg)) (tail : List FetchResult) (cur : Option String)
      (acc : List Msg),
      (repliesAux channel tts (midPages ps ++ tail) cur acc).replies =
          (repliesAux channel tts tail (midCur cur ps) (acc ++ concatIsReply ps)).replies ∧
      (repliesAux channel tts (midPages ps ++ tail) cur acc).term =
          (repliesAux channel tts tail (midCur cur ps) (acc ++ concatIsReply ps)).term := by
  intro ps
  induction ps with
  | nil =>
      intro tail cur acc
      simp [midPages, midCur, concatIsReply]
  | cons p rest ih =>
      intro tail cur acc
      have ihh := ih tail (some "cur") (acc ++ p.filter isReply)
      rw [midCur_cur] at ihh
      simp only [midPages, List.map_cons, List.cons_append, repliesAux] at ihh ⊢
      simp only [midCur, concatIsReply, List.foldr_cons]
      simpa [truthyStr, concatIsReply, List.append_assoc] using ihh

theorem fetchAux_midPages (perma : String → String) (channel : String) :
    ∀ (ps : List (List Msg)) (tail : List FetchResult) (cur : Option String)
      (acc : List ThreadRecord),
      (fetchAux perma channel (midPages ps ++ tail) cur acc).threads =
          (fetchAux perma channel tail (midCur cur ps)
            (acc ++ concatRootRecords perma ps)).threads ∧
      (fetchAux perma channel (midPages ps ++ tail) cur acc).term =
          (fetchAux perma channel tail (midCur cur ps)
            (acc ++ concatRootRecords perma ps)).term := by
  intro ps
  induction ps with
  | nil =>
      intro tail cur acc
      simp [midPages, midCur, concatRootRecords]
  | cons p rest ih =>
      intro tail cur acc
      have ihh := ih tail (some "cur") (acc ++ (p.filter isThreadRoot).map (mkThreadRecord perma))
      rw [midCur_cur] at ihh
      simp only [midPages, List.map_cons, List.cons_append, fetchAux] at ihh ⊢
      simp only [midCur, concatRootRecords, List.foldr_cons]
      simpa [truthyStr, concatRootRecords, List.append_assoc] using ihh

theorem fetchAux_abandon (perma : String → String) (channel : String)
    (e : FetchResult) (rest : List FetchResult) (cur : Option String)
    (acc : List ThreadRecord) (h : abandonsChan e = true) :
    (fetchAux perma channel (e :: rest) cur acc).threads = acc ∧
    (fetchAux perma channel (e :: rest) cur acc).term = .abandoned := by
  cases e with
  | transportFail => simp [fetchAux]
  | resp r =>
      obtain ⟨st, ra, b⟩ := r
      simp only [abandonsChan] at h
      by_cases h429 : (st == 429) = true
      · simp [h429] at h
      · have h429' : (st == 429) = false := by
          cases hcc : (st == 429)
          · rfl
          · exact absurd hcc h429
        by_cases h400 : 400 ≤ st
        · simp [fetchAux, h429', h400]
        · cases b with
          | ok msgs c => simp [h429', h400] at h
          | err m => simp [fetchAux, h429', h400]

theorem repliesAux_softAbandon (channel tts : String)
    (e : FetchResult) (rest : List FetchResult) (cur : Option String)
    (acc : List Msg) (h : softAbandonsReplies e = true) :
    (repliesAux channel tts (e :: rest) cur acc).replies = acc ∧
    (repliesAux channel tts (e :: rest) cur acc).term = .abandoned := by
  cases e with
  | transportFail => simp [softAbandonsReplies] at h
  | resp r =>
      obtain ⟨st, ra, b⟩ := r
      simp only [softAbandonsReplies] at h
      by_cases hg : ((st == 429) && ra.isSome) = true
      · simp [hg] at h
      · have hg' : ((st == 429) && ra.isSome) = false := by
          cases hcc : ((st == 429) && ra.isSome)
          · rfl
          · exact absurd hcc hg
        cases b with
        | ok msgs c => simp [hg'] at h
        | err m =>
            by_cases hm : (m == "ratelimited") = true
            · simp only [hg', hm, if_true, if_false, Bool.false_eq_true] at h
              have hra : ra = none := by
                cases ra
                · rfl
                · simp [Option.isNone] at h
              subst hra
              simp [repliesAux, hg', hm]
            · have hm' : (m == "ratelimited") = false := by
                cases hcc : (m == "ratelimited")
                · rfl
                · exact absurd hcc hm
              simp [repliesAux, hg', hm']

theorem repliesAux_transportFail (channel tts : String)
    (rest : List FetchResult) (cur : Option String) (acc : List Msg) :
    (repliesAux channel tts (.transportFail :: rest) cur acc).replies = acc ∧
    (repliesAux channel tts (.transportFail :: rest) cur acc).term = .crashed := by
  simp [repliesAux]

theorem runUnits_cons_noCrash (channel : String) (net : String → List FetchResult)
    (i : Nat) (t : String) (rest : List String) (acc : List Msg)
    (h : (collectReplies channel t (net t)).term ≠ .crashed) :
    runUnits channel net i (t :: rest) acc =
      ⟨(runUnits channel net (i + 1) rest
          (acc ++ (collectReplies channel t (net t)).replies)).replies,
       .writeProgress (i + 1) ::
         .writeReplies (acc ++ (collectReplies channel t (net t)).replies) ::
           (runUnits channel net (i + 1) rest
             (acc ++ (collectReplies channel t (net t)).replies)).events,
       t :: (runUnits channel net (i + 1) rest
         (acc ++ (collectReplies channel t (net t)).replies)).fetched,
       (runUnits channel net (i + 1) rest
         (acc ++ (collectReplies channel t (net t)).replies)).crashed⟩ := by
  simp only [runUnits]
  rw [if_neg h]

theorem runUnits_cons_crashed (channel : String) (net : String → List FetchResult)
    (i : Nat) (t : String) (rest : List String) (acc : List Msg)
    (h : (collectReplies channel t (net t)).term = .crashed) :
    runUnits channel net i (t :: rest) acc =
      ⟨acc ++ (collectReplies channel t (net t)).replies, [], [t], true⟩ := by
  simp only [runUnits]
  rw [if_pos h]

theorem fetchAux_mem (perma : String → String) (channel : String) :
    ∀ (trace : List FetchResult) (cur : Option String) (acc : List ThreadRecord)
      (r : ThreadRecord),
      r ∈ (fetchAux perma channel trace cur acc).threads →
      r ∈ acc ∨ (r.thread_ts = r.ts ∧ 0 < r.reply_count) := by
  intro trace
  induction trace with
  | nil => intro cur acc r hr; exact Or.inl hr
  | cons e rest ih =>
      intro cur acc r hr
      cases e with
      | transportFail => exact Or.inl hr
      | resp hrp =>
          obtain ⟨st, ra, b⟩ := hrp
          cases b with
          | err m =>
              simp only [fetchAux] at hr
              by_cases h429 : (st == 429) = true
              · rw [if_pos h429] at hr
                simp only at hr
                exact ih cur acc r hr
              · rw [if_neg h429] at hr
                by_cases h400 : 400 ≤ st
                · rw [if_pos h400] at hr
                  exact Or.inl (by simpa using hr)
                · rw [if_neg h400] at hr
                  exact Or.inl (by simpa using hr)
          | ok msgs c =>
              have key : ∀ x ∈ acc ++ (msgs.filter isThreadRoot).map (mkThreadRecord perma),
                  x ∈ acc ∨ (x.thread_ts = x.ts ∧ 0 < x.reply_count) := by
                intro x hx
                rcases List.mem_append.mp hx with hx1 | hx2
                · exact Or.inl hx1
                · right
                  obtain ⟨m, hm, hmk⟩ := List.mem_map.mp hx2
                  have hroot : isThreadRoot m = true := List.of_mem_filter hm
                  subst hmk
                  refine ⟨rfl, ?_⟩
                  simp only [isThreadRoot] at hroot
                  cases hmc : m.reply_count with
                  | none => rw [hmc] at hroot; exact absurd hroot (by simp)
                  | some v =>
                      rw [hmc] at hroot
                      simp only [mkThreadRecord, hmc, Option.getD_some]
                      exact of_decide_eq_true hroot
              simp only [fetchAux] at hr
              by_cases h429 : (st == 429) = true
              · rw [if_pos h429] at hr
                simp only at hr
                exact ih cur acc r hr
              · rw [if_neg h429] at hr
                by_cases h400 : 400 ≤ st
                · rw [if_pos h400] at hr
                  exact Or.inl (by simpa using hr)
                · rw [if_neg h400] at hr
                  by_cases hcur : truthyStr c = true
                  · rw [if_pos hcur] at hr
                    simp only at hr
                    rcases ih c _ r hr with hin | hprop
                    · exact key r hin
                    · exact Or.inr hprop
                  · rw [if_neg hcur] at hr
                    simp only at hr
                    exact key r hr

theorem buildHistoryParams_no_oldest (channel : String) (cur : Option String) :
    ∀ kv ∈ buildHistoryParams channel cur, kv.1 ≠ "oldest" := by
  intro kv hkv
  rw [buildHistoryParams.eq_def] at hkv
  rcases List.mem_append.mp hkv with h | h
  · simp only [List.mem_cons, List.not_mem_nil, or_false] at h
    rcases h with h | h <;> subst h <;> simp
  · cases cur with
    | none => simp at h
    | some c =>
        dsimp only at h
        by_cases hc : (c == "") = true
        · rw [if_pos hc] at h
          simp at h
        · rw [if_neg hc] at h
          simp only [List.mem_singleton] at h
          subst h
          simp

theorem fetchAux_reqs_no_oldest (perma : String → String) (channel : String) :
    ∀ (trace : List FetchResult) (cur : Option String) (acc : List ThreadRecord),
      ∀ ps ∈ (fetchAux perma channel trace cur acc).reqs, ∀ kv ∈ ps, kv.1 ≠ "oldest" := by
  intro trace
  induction trace with
  | nil => intro cur acc ps hps; simp [fetchAux] at hps
  | cons e rest ih =>
      intro cur acc ps hps
      cases e with
      | transportFail =>
          simp only [fetchAux, List.mem_singleton] at hps
          subst hps
          exact buildHistoryParams_no_oldest channel cur
      | resp hrp =>
          obtain ⟨st, ra, b⟩ := hrp
          cases b with
          | err m =>
              simp only [fetchAux] at hps
              by_cases h429 : (st == 429) = true
              · rw [if_pos h429] at hps
                simp only [List.mem_cons] at hps
                rcases hps with h | h
                · subst h; exact buildHistoryParams_no_oldest channel cur
                · exact ih cur acc ps h
              · rw [if_neg h429] at hps
                by_cases h400 : 400 ≤ st
                · rw [if_pos h400] at hps
                  simp only [List.mem_singleton] at hps
                  subst hps
                  exact buildHistoryParams_no_oldest channel cur
                · rw [if_neg h400] at hps
                  simp only [List.mem_singleton] at hps
                  subst hps
                  exact buildHistoryParams_no_oldest channel cur
          | ok msgs c =>
              simp only [fetchAux] at hps
              by_cases h429 : (st == 429) = true
              · rw [if_pos h429] at hps
                simp only [List.mem_cons] at hps
                rcases hps with h | h
                · subst h; exact buildHistoryParams_no_oldest channel cur
                · exact ih cur acc ps h
              · rw [if_neg h429] at hps
                by_cases h400 : 400 ≤ st
                · rw [if_pos h400] at hps
                  simp only [List.mem_singleton] at hps
                  subst hps
                  exact buildHistoryParams_no_oldest channel cur
                · rw [if_neg h400] at hps
                  by_cases hcur : truthyStr c = true
                  · rw [if_pos hcur] at hps
                    simp only [List.mem_cons] at hps
                    rcases hps with h | h
                    · subst h; exact buildHistoryParams_no_oldest channel cur
                    · exact ih c _ ps h
                  · rw [if_neg hcur] at hps
                    simp only [List.mem_singleton] at hps
                    subst hps
                    exact buildHistoryParams_no_oldest channel cur

/-- Remote state whose every thread listing is abandoned at once by an
`ok: false` body with a non-ratelimit error. -/
def netAb : String → List FetchResult := fun _ => [.resp ⟨200, none, .err "bad"⟩]

/-- Remote state whose every thread listing crashes at once on a transport
failure. -/
def netCr : String → List FetchResult := fun _ => [.transportFail]

/-- Claim C1 (counterexample): the two files are not persisted atomically;
`progress.json` is written before `replies.json`, so after the first durable
write of the run the marker already reads 1 while the reply collected for
unit 1 is not yet in the (still unwritten) result snapshot.  The event list
of a one-unit run is marker-write, snapshot-write, marker-reset, and after
its first event alone the marker is 1 but `msgR` is absent from the durable
snapshot even though it belongs to unit 1's collected replies. -/
theorem c1_counterexample :
    (mainRun "C" net1 ["1.0"] 0 []).events =
        [.writeProgress 1, .writeReplies [msgR], .writeProgress 0] ∧
    (stateAfter ⟨0, none⟩ ((mainRun "C" net1 ["1.0"] 0 []).events.take 1)).marker = 1 ∧
    msgR ∉ (stateAfter ⟨0, none⟩
      ((mainRun "C" net1 ["1.0"] 0 []).events.take 1)).repliesFile.getD [] ∧
    msgR ∈ concatReplies "C" net1 (["1.0"].take 1) := by
  decide

/-- Claim C1 (amended): in an uncrashed run of the replies job the invariant
holds at every unit boundary — after the pair of writes finishing unit `i`
(the first `2 * (i + 1)` durable events), the marker reads `i + 1` and the
result snapshot holds exactly the replies of units `0..i` — but the pair is
two sequential writes with the marker first, not one atomic step, so between
them the marker points one unit past the durably written replies. -/
theorem c1_amended (channel : String) (net : String → List FetchResult)
    (tsList : List String) (i : Nat) (h1 : i < tsList.length)
    (h2 : ∀ t ∈ tsList, (collectReplies channel t (net t)).term ≠ .crashed) :
    stateAfter ⟨0, none⟩ ((mainRun channel net tsList 0 []).events.take (2 * (i + 1))) =
      ⟨i + 1, some (concatReplies channel net (tsList.take (i + 1)))⟩ := by
  have hrun := runUnits_noCrash channel net tsList 0 [] h2
  have hev : (mainRun channel net tsList 0 []).events
      = unitEvents channel net 0 tsList [] ++ [.writeProgress 0] := by
    simp [mainRun, List.drop_zero, hrun]
  rw [hev]
  have htake := stateAfter_unitEvents_take channel net tsList i 0 [] ⟨0, none⟩
    [PersistEvent.writeProgress 0] (by omega)
  simpa using htake

/-- Claim C1 (witness): the amended boundary invariant evaluated on a
concrete one-unit run. -/
theorem c1_amended_witness :
    (0 < (["1.0"] : List String).length) ∧
    (∀ t ∈ (["1.0"] : List String), (collectReplies "C" t (net1 t)).term ≠ .crashed) ∧
    stateAfter ⟨0, none⟩ ((mainRun "C" net1 ["1.0"] 0 []).events.take (2 * (0 + 1))) =
      ⟨0 + 1, some (concatReplies "C" net1 (["1.0"].take (0 + 1)))⟩ :=
  ⟨by decide, by decide, c1_amended "C" net1 ["1.0"] 0 (by decide) (by decide)⟩

/-- Claim C2: a fresh run resuming from marker `k` over the snapshot holding
units `1..k`'s replies fetches exactly the remaining thread timestamps,
appends exactly their collected replies, and ends with the same result as an
uninterrupted full run. -/
theorem c2_resume_exact (channel : String) (net : String → List FetchResult)
    (tsList : List String) (k : Nat) (_h0 : 1 ≤ k) (_h1 : k ≤ tsList.length)
    (h2 : ∀ t ∈ tsList.drop k, (collectReplies channel t (net t)).term ≠ .crashed) :
    (mainRun channel net tsList k (concatReplies channel net (tsList.take k))).fetched
        = tsList.drop k ∧
    (mainRun channel net tsList k (concatReplies channel net (tsList.take k))).replies
        = concatReplies channel net (tsList.take k) ++
            concatReplies channel net (tsList.drop k) ∧
    concatReplies channel net (tsList.take k) ++ concatReplies channel net (tsList.drop k)
        = concatReplies channel net tsList := by
  have hrun := runUnits_noCrash channel net (tsList.drop k) k
    (concatReplies channel net (tsList.take k)) h2
  refine ⟨?_, ?_, ?_⟩
  · simp [mainRun, hrun]
  · simp [mainRun, hrun]
  · rw [← concatReplies_append, List.take_append_drop]

/-- Claim C2 (witness): resumption after unit 1 of a two-unit work list. -/
theorem c2_resume_exact_witness :
    (1 ≤ 1) ∧ (1 ≤ (["1.0", "2.0"] : List String).length) ∧
    (∀ t ∈ (["1.0", "2.0"] : List String).drop 1,
      (collectReplies "C" t (net1 t)).term ≠ .crashed) ∧
    ((mainRun "C" net1 ["1.0", "2.0"] 1
        (concatReplies "C" net1 (["1.0", "2.0"].take 1))).fetched
          = ["1.0", "2.0"].drop 1 ∧
      (mainRun "C" net1 ["1.0", "2.0"] 1
        (concatReplies "C" net1 (["1.0", "2.0"].take 1))).replies
          = concatReplies "C" net1 (["1.0", "2.0"].take 1) ++
              concatReplies "C" net1 (["1.0", "2.0"].drop 1) ∧
      concatReplies "C" net1 (["1.0", "2.0"].take 1) ++
          concatReplies "C" net1 (["1.0", "2.0"].drop 1)
        = concatReplies "C" net1 ["1.0", "2.0"]) :=
  ⟨by decide, by decide, by decide,
   c2_resume_exact "C" net1 ["1.0", "2.0"] 1 (by decide) (by decide) (by decide)⟩

/-- Claim C3: over any sequence of successful pages, each pagination loop
returns exactly the concatenation, in page order, of the per-page items
passing its filter (`isReply` for the replies listing, `isThreadRoot` mapped
to records for the channel listing), consuming pages up to and including the
first one supplying no truthy next cursor, and the loop terminates normally
precisely when such a page exists (Slack encodes an omitted cursor as absent
or as the empty string; both are falsy to the scripts). -/
theorem c3_collect_all (channel tts : String) (perma : String → String)
    (chan2 : String) (pages cpages : List (List Msg × Option String)) :
    ((collectReplies channel tts (pagesToTrace pages)).replies =
        concatIsReply ((pages.take (stopIdx pages + 1)).map Prod.fst) ∧
      ((collectReplies channel tts (pagesToTrace pages)).term = .normal ↔
        stopIdx pages < pages.length)) ∧
    ((fetch_only_thread_messages perma chan2 (pagesToTrace cpages)).threads =
        concatRootRecords perma ((cpages.take (stopIdx cpages + 1)).map Prod.fst) ∧
      ((fetch_only_thread_messages perma chan2 (pagesToTrace cpages)).term = .normal ↔
        stopIdx cpages < cpages.length)) := by
  have hr := repliesAux_pagesToTrace channel tts pages none []
  have hc := fetchAux_pagesToTrace perma chan2 cpages none []
  refine ⟨⟨by simpa [collectReplies] using hr.1, ?_⟩,
          ⟨by simpa [fetch_only_thread_messages] using hc.1, ?_⟩⟩
  · have := hr.2
    simp only [collectReplies]
    rw [this]
    by_cases h : stopIdx pages < pages.length <;> simp [h]
  · have := hc.2
    simp only [fetch_only_thread_messages]
    rw [this]
    by_cases h : stopIdx cpages < cpages.length <;> simp [h]

/-- Claim C4 (counterexample): throttling is not uniformly retried with a
10-second fallback.  In the replies exporter, a 429 response carrying an
API-level `ratelimited` body but no `Retry-After` header abandons the unit
with no sleep; in the channel exporter, an API-level `ratelimited` error is
abandoned as an ordinary soft error rather than retried. -/
theorem c4_counterexample :
    (collectReplies "C" "1.0" [.resp ⟨429, none, .err "ratelimited"⟩]).term
        = .abandoned ∧
    (collectReplies "C" "1.0" [.resp ⟨429, none, .err "ratelimited"⟩]).sleeps = [] ∧
    (fetch_only_thread_messages perma0 "C" [.resp ⟨200, none, .err "ratelimited"⟩]).term
        = .abandoned := by
  decide

/-- Claim C4 (amended): in the channel exporter an HTTP 429 always sleeps
`Retry-After` with a 10-second default and retries the identical request with
unchanged cursor state; in the replies exporter an HTTP 429 or an API-level
`ratelimited` error retries identically only when `Retry-After` is present,
sleeping exactly that duration, and a `ratelimited` error without the header
abandons the unit, surfacing as failure. -/
theorem c4_amended (perma : String → String) (channel tts : String)
    (r : HttpResp) (rest : List FetchResult) (cur : Option String)
    (accC : List ThreadRecord) (acc : List Msg) (w : Nat) :
    (r.status = 429 →
      fetchAux perma channel (.resp r :: rest) cur accC =
        ⟨(fetchAux perma channel rest cur accC).threads,
         (fetchAux perma channel rest cur accC).term,
         buildHistoryParams channel cur :: (fetchAux perma channel rest cur accC).reqs,
         (r.retryAfter.getD 10) :: (fetchAux perma channel rest cur accC).sleeps⟩) ∧
    (r.retryAfter = some w → (r.status = 429 ∨ r.body = .err "ratelimited") →
      repliesAux channel tts (.resp r :: rest) cur acc =
        ⟨(repliesAux channel tts rest cur acc).replies,
         (repliesAux channel tts rest cur acc).term,
         buildRepliesData channel tts cur :: (repliesAux channel tts rest cur acc).reqs,
         w :: (repliesAux channel tts rest cur acc).sleeps⟩) ∧
    (r.retryAfter = none → r.body = .err "ratelimited" →
      repliesAux channel tts (.resp r :: rest) cur acc =
        ⟨acc, .abandoned, [buildRepliesData channel tts cur], []⟩) := by
  obtain ⟨st, ra, b⟩ := r
  refine ⟨?_, ?_, ?_⟩
  · intro hst
    simp only at hst
    subst hst
    simp [fetchAux]
  · intro hra hor
    simp only at hra
    subst hra
    rcases hor with hst | hb
    · simp only at hst
      subst hst
      simp [repliesAux]
    · simp only at hb
      subst hb
      by_cases hst : (st == 429) = true
      · simp [repliesAux, hst]
      · have hst' : (st == 429) = false := by
          cases hcc : (st == 429)
          · rfl
          · exact absurd hcc hst
        simp [repliesAux, hst']
  · intro hra hb
    simp only at hra hb
    subst hra
    subst hb
    simp [repliesAux]

/-- Claim C4 (witness): the amended throttling behaviour evaluated at a
channel-exporter 429 without a header (10-second default), a replies-exporter
`ratelimited` error with `Retry-After: 3` (3-second retry), and a
replies-exporter `ratelimited` error without the header (abandon). -/
theorem c4_amended_witness :
    (fetchAux perma0 "C" [.resp ⟨429, none, .ok [] none⟩] none [] =
        ⟨(fetchAux perma0 "C" [] none []).threads,
         (fetchAux perma0 "C" [] none []).term,
         buildHistoryParams "C" none :: (fetchAux perma0 "C" [] none []).reqs,
         10 :: (fetchAux perma0 "C" [] none []).sleeps⟩) ∧
    (repliesAux "C" "1.0" [.resp ⟨200, some 3, .err "ratelimited"⟩] none [] =
        ⟨(repliesAux "C" "1.0" [] none []).replies,
         (repliesAux "C" "1.0" [] none []).term,
         buildRepliesData "C" "1.0" none :: (repliesAux "C" "1.0" [] none []).reqs,
         3 :: (repliesAux "C" "1.0" [] none []).sleeps⟩) ∧
    (repliesAux "C" "1.0" [.resp ⟨200, none, .err "ratelimited"⟩] none [] =
        ⟨[], .abandoned, [buildRepliesData "C" "1.0" none], []⟩) :=
  ⟨(c4_amended perma0 "C" "1.0" ⟨429, none, .ok [] none⟩ [] none [] [] 0).1 rfl,
   (c4_amended perma0 "C" "1.0" ⟨200, some 3, .err "ratelimited"⟩ [] none [] [] 3).2.1
     rfl (Or.inr rfl),
   (c4_amended perma0 "C" "1.0" ⟨200, none, .err "ratelimited"⟩ [] none [] [] 0).2.2
     rfl rfl⟩

/-- Claim C5 (counterexample): a completed run resets the marker to 0, so a
second run against unchanged remote state starts from index 0, reprocesses
unit 1, and appends a duplicate of every record: the result after the second
run is `[msgR, msgR]`, not the first run's `[msgR]`. -/
theorem c5_counterexample :
    stateAfter ⟨0, none⟩ (mainRun "C" net1 ["1.0"] 0 []).events = ⟨0, some [msgR]⟩ ∧
    (mainRun "C" net1 ["1.0"] 0 [msgR]).replies = [msgR, msgR] ∧
    ([msgR, msgR] : List Msg) ≠ [msgR] := by
  decide

/-- Claim C5 (amended): a second run appends no records only when it starts
from a marker equal to the work-list length (the value persisted after the
last unit, before the final reset): from there it fetches nothing and leaves
the result unchanged.  Because a completed run resets the marker to 0, an
actual second run after completion reprocesses every unit and duplicates
every record. -/
theorem c5_amended (channel : String) (net : String → List FetchResult)
    (tsList : List String) (replies0 : List Msg) :
    (mainRun channel net tsList tsList.length replies0).replies = replies0 ∧
    (mainRun channel net tsList tsList.length replies0).fetched = [] ∧
    (mainRun channel net tsList tsList.length replies0).events = [.writeProgress 0] := by
  refine ⟨?_, ?_, ?_⟩ <;> simp [mainRun, runUnits, List.drop_length]

/-- Claim C6 (counterexample): the channel listing keeps no ResumeMarker and
applies no lower-bound filter.  A first run over the unchanged remote trace
collects newest id `"5"`; a second run is the same marker-less computation and
again collects a record with id `"5"`, i.e. an item at the previous boundary
is re-collected, and the single request issued carries only the `channel` and
`limit` parameters — no boundary parameter at all. -/
theorem c6_counterexample :
    ((fetch_only_thread_messages perma0 "C" tr6).threads.map ThreadRecord.ts = ["5"]) ∧
    (((fetch_only_thread_messages perma0 "C" tr6).threads.map ThreadRecord.ts).contains "5"
        = true) ∧
    ((fetch_only_thread_messages perma0 "C" tr6).reqs = [buildHistoryParams "C" none]) ∧
    (buildHistoryParams "C" none = [("channel", "C"), ("limit", "1000")]) := by
  decide

/-- Claim C6 (amended): the channel-level exporter maintains no ResumeMarker:
no listing request it ever issues carries an `oldest` lower-bound parameter —
the parameters are exactly `channel` and `limit`, plus `cursor` once a truthy
next cursor is followed — so items at or before any previous run's newest id
are re-collected rather than excluded. -/
theorem c6_amended (perma : String → String) (channel : String)
    (trace : List FetchResult) (cur : Option String) :
    ((fetch_only_thread_messages perma channel trace).reqs.all
        (fun ps => ps.all (fun kv => kv.1 != "oldest")) = true) ∧
    (buildHistoryParams channel cur).map Prod.fst =
      ["channel", "limit"] ++ (if truthyStr cur then ["cursor"] else []) := by
  constructor
  · rw [List.all_eq_true]
    intro ps hps
    rw [List.all_eq_true]
    intro kv hkv
    rw [bne_iff_ne]
    exact fetchAux_reqs_no_oldest perma channel trace none [] ps hps kv hkv
  · cases cur with
    | none => simp [buildHistoryParams, truthyStr]
    | some c =>
        by_cases hc : (c == "") = true
        · have hce : c = "" := by simpa using hc
          subst hce
          simp [buildHistoryParams, truthyStr]
        · simp [buildHistoryParams, truthyStr, hc]

/-- Claim C7 (counterexample): with an empty work list the job fetches
nothing and resets the marker, but it never writes the result snapshot: the
only durable event is the marker reset, so a previously absent `replies.json`
stays absent — no empty result set is written. -/
theorem c7_counterexample :
    (mainRun "C" netE [] 0 []).fetched = [] ∧
    (stateAfter ⟨0, none⟩ (mainRun "C" netE [] 0 []).events).repliesFile = none ∧
    ((none : Option (List Msg)) ≠ some ([] : List Msg)) := by
  decide

/-- Claim C7 (amended): an empty work list completes the job immediately with
no network activity and resets the ResumeMarker to 0, but performs no write
to the result snapshot, leaving whatever file state existed before the run
untouched. -/
theorem c7_amended (channel : String) (net : String → List FetchResult)
    (replies0 : List Msg) (init : DurableState) :
    (mainRun channel net [] 0 replies0).fetched = [] ∧
    (mainRun channel net [] 0 replies0).events = [.writeProgress 0] ∧
    stateAfter init (mainRun channel net [] 0 replies0).events = ⟨0, init.repliesFile⟩ := by
  refine ⟨?_, ?_, ?_⟩ <;> simp [mainRun, runUnits, stateAfter, applyEvent]

/-- Claim C8 (counterexample): a transport failure in the replies exporter is
uncaught, so the unit's partial result is lost rather than persisted: thread
1.0's pagination collects `msgR` from its first page before the transport
failure, yet the run dies with no durable write at all and never proceeds to
thread 2.0. -/
theorem c8_counterexample :
    (collectReplies "C" "1.0" (net8 "1.0")).replies = [msgR] ∧
    (collectReplies "C" "1.0" (net8 "1.0")).term = .crashed ∧
    (mainRun "C" net8 ["1.0", "2.0"] 0 []).events = [] ∧
    (mainRun "C" net8 ["1.0", "2.0"] 0 []).fetched = ["1.0"] := by
  decide

/-- Claim C8 (amended): partial results are preserved on abandonment, with
one exception.  The channel listing returns everything collected before a
soft error, error status, or caught transport failure; the replies loop
returns everything collected before an API-level soft error, and the runner
then persists that partial result and continues with the remaining units; but
a transport failure in the replies exporter is uncaught — the run stops at
that unit with no persistence of its partial replies and no further units. -/
theorem c8_amended (perma : String → String) (channel tts : String)
    (net : String → List FetchResult) (i : Nat) (t : String)
    (restTs : List String) (acc0 : List Msg)
    (cps ps : List (List Msg)) (e : FetchResult) (rest : List FetchResult)
    (cur : Option String) (accC : List ThreadRecord) (acc : List Msg) :
    (abandonsChan e = true →
      (fetchAux perma channel (midPages cps ++ e :: rest) cur accC).threads =
          accC ++ concatRootRecords perma cps ∧
      (fetchAux perma channel (midPages cps ++ e :: rest) cur accC).term = .abandoned) ∧
    (softAbandonsReplies e = true →
      (repliesAux channel tts (midPages ps ++ e :: rest) cur acc).replies =
          acc ++ concatIsReply ps ∧
      (repliesAux channel tts (midPages ps ++ e :: rest) cur acc).term = .abandoned) ∧
    ((collectReplies channel t (net t)).term = .abandoned →
      runUnits channel net i (t :: restTs) acc0 =
        ⟨(runUnits channel net (i + 1) restTs
            (acc0 ++ (collectReplies channel t (net t)).replies)).replies,
         .writeProgress (i + 1) ::
           .writeReplies (acc0 ++ (collectReplies channel t (net t)).replies) ::
             (runUnits channel net (i + 1) restTs
               (acc0 ++ (collectReplies channel t (net t)).replies)).events,
         t :: (runUnits channel net (i + 1) restTs
           (acc0 ++ (collectReplies channel t (net t)).replies)).fetched,
         (runUnits channel net (i + 1) restTs
           (acc0 ++ (collectReplies channel t (net t)).replies)).crashed⟩) ∧
    ((collectReplies channel t (net t)).term = .crashed →
      runUnits channel net i (t :: restTs) acc0 =
        ⟨acc0 ++ (collectReplies channel t (net t)).replies, [], [t], true⟩) := by
  refine ⟨?_, ?_, ?_, ?_⟩
  · intro he
    have hmid := fetchAux_midPages perma channel cps (e :: rest) cur accC
    have hab := fetchAux_abandon perma channel e rest (midCur cur cps)
      (accC ++ concatRootRecords perma cps) he
    exact ⟨hmid.1.trans hab.1, hmid.2.trans hab.2⟩
  · intro he
    have hmid := repliesAux_midPages channel tts ps (e :: rest) cur acc
    have hab := repliesAux_softAbandon channel tts e rest (midCur cur ps)
      (acc ++ concatIsReply ps) he
    exact ⟨hmid.1.trans hab.1, hmid.2.trans hab.2⟩
  · intro he
    have hne : (collectReplies channel t (net t)).term ≠ .crashed := by
      rw [he]
      decide
    exact runUnits_cons_noCrash channel net i t restTs acc0 hne
  · intro he
    exact runUnits_cons_crashed channel net i t restTs acc0 he

/-- Claim C8 (witness): the amended abandonment behaviour evaluated on
concrete traces — a channel listing abandoned by a transport failure after
one good page, a replies listing abandoned by a soft error after one good
page, a runner step over an abandoned unit, and a runner step over a crashed
unit. -/
theorem c8_amended_witness :
    ((fetchAux perma0 "C" (midPages [[thr5]] ++ FetchResult.transportFail :: []) none []).threads
        = [] ++ concatRootRecords perma0 [[thr5]] ∧
      (fetchAux perma0 "C" (midPages [[thr5]] ++ FetchResult.transportFail :: []) none []).term
        = .abandoned) ∧
    ((repliesAux "C" "1.0"
        (midPages [[msgR]] ++ FetchResult.resp ⟨200, none, .err "bad"⟩ :: []) none []).replies
        = [] ++ concatIsReply [[msgR]] ∧
      (repliesAux "C" "1.0"
        (midPages [[msgR]] ++ FetchResult.resp ⟨200, none, .err "bad"⟩ :: []) none []).term
        = .abandoned) ∧
    (runUnits "C" netAb 0 ["1.0"] [] =
        ⟨(runUnits "C" netAb 1 [] ([] ++ (collectReplies "C" "1.0" (netAb "1.0")).replies)).replies,
         .writeProgress 1 ::
           .writeReplies ([] ++ (collectReplies "C" "1.0" (netAb "1.0")).replies) ::
             (runUnits "C" netAb 1 [] ([] ++ (collectReplies "C" "1.0" (netAb "1.0")).replies)).events,
         "1.0" :: (runUnits "C" netAb 1 [] ([] ++ (collectReplies "C" "1.0" (netAb "1.0")).replies)).fetched,
         (runUnits "C" netAb 1 [] ([] ++ (collectReplies "C" "1.0" (netAb "1.0")).replies)).crashed⟩) ∧
    (runUnits "C" netCr 0 ["1.0"] [] =
        ⟨[] ++ (collectReplies "C" "1.0" (netCr "1.0")).replies, [], ["1.0"], true⟩) :=
  ⟨(c8_amended perma0 "C" "1.0" netAb 0 "1.0" [] [] [[thr5]] [] FetchResult.transportFail
      [] none [] []).1 (by decide),
   (c8_amended perma0 "C" "1.0" netAb 0 "1.0" [] [] [] [[msgR]]
      (FetchResult.resp ⟨200, none, .err "bad"⟩) [] none [] []).2.1 (by decide),
   (c8_amended perma0 "C" "1.0" netAb 0 "1.0" [] [] [] [] FetchResult.transportFail
      [] none [] []).2.2.1 (by decide),
   (c8_amended perma0 "C" "1.0" netCr 0 "1.0" [] [] [] [] FetchResult.transportFail
      [] none [] []).2.2.2 (by decide)⟩

/-- Claim C9 (counterexample): the channel exporter applies no sort pass: the
records of a page listing `ts` 5 before `ts` 3 (the API's newest-first order)
are saved in exactly that arrival order, which is not ascending id order. -/
theorem c9_counterexample :
    ((fetch_only_thread_messages perma0 "C" tr9).threads.map ThreadRecord.ts = ["5", "3"]) ∧
    ascendingByTs (fetch_only_thread_messages perma0 "C" tr9).threads = false := by
  decide

/-- Claim C9 (amended): the per-thread replies job does append results in the
original work-list order, but the channel listing performs no sort pass: its
output is exactly the page-arrival order of the filtered records, the order
the API returned them in, with no reordering before the save. -/
theorem c9_amended (channel : String) (net : String → List FetchResult)
    (tsList : List String) (replies0 : List Msg) (perma : String → String)
    (chan2 : String) (cpages : List (List Msg × Option String)) :
    ((∀ t ∈ tsList, (collectReplies channel t (net t)).term ≠ .crashed) →
      (mainRun channel net tsList 0 replies0).replies =
        replies0 ++ concatReplies channel net tsList) ∧
    (fetch_only_thread_messages perma chan2 (pagesToTrace cpages)).threads =
      concatRootRecords perma ((cpages.take (stopIdx cpages + 1)).map Prod.fst) := by
  constructor
  · intro h
    have hrun := runUnits_noCrash channel net tsList 0 replies0 h
    simp [mainRun, List.drop_zero, hrun]
  · simpa [fetch_only_thread_messages] using
      (fetchAux_pagesToTrace perma chan2 cpages none []).1

/-- Channel page list holding one final page with `thr5` before `thr3`. -/
def cpw : List (List Msg × Option String) := [([thr5, thr3], none)]

/-- Claim C9 (witness): the amended ordering facts evaluated on a concrete
one-unit replies run and a concrete two-record channel page. -/
theorem c9_amended_witness :
    (∀ t ∈ (["1.0"] : List String), (collectReplies "C" t (net1 t)).term ≠ .crashed) ∧
    (mainRun "C" net1 ["1.0"] 0 []).replies = [] ++ concatReplies "C" net1 ["1.0"] ∧
    (fetch_only_thread_messages perma0 "C" (pagesToTrace cpw)).threads =
      concatRootRecords perma0 ((cpw.take (stopIdx cpw + 1)).map Prod.fst) :=
  ⟨by decide,
   (c9_amended "C" net1 ["1.0"] [] perma0 "C" cpw).1 (by decide),
   (c9_amended "C" net1 ["1.0"] [] perma0 "C" cpw).2⟩

/-- Claim C10: every record emitted by the channel thread export has
`thread_ts` equal to its own `ts` (the exporter always copies the message's
`ts`, never an API-reported `thread_ts`) and a `reply_count` greater than
zero, because only messages carrying a positive `reply_count` key are
collected. -/
theorem c10_record_invariant (perma : String → String) (channel : String)
    (trace : List FetchResult) (r : ThreadRecord)
    (h : r ∈ (fetch_only_thread_messages perma channel trace).threads) :
    r.thread_ts = r.ts ∧ 0 < r.reply_count := by
  rcases fetchAux_mem perma channel trace none [] r h with hin | hp
  · exact absurd hin (List.not_mem_nil r)
  · exact hp

/-- Claim C10 (witness): the record invariant evaluated on the concrete
record collected from `tr6`. -/
theorem c10_record_invariant_witness :
    (mkThreadRecord perma0 thr5) ∈ (fetch_only_thread_messages perma0 "C" tr6).threads ∧
    ((mkThreadRecord perma0 thr5).thread_ts = (mkThreadRecord perma0 thr5).ts ∧
      0 < (mkThreadRecord perma0 thr5).reply_count) :=
  ⟨by decide, c10_record_invariant perma0 "C" tr6 (mkThreadRecord perma0 thr5) (by decide)⟩

end AltunSlack
